import Mathlib

/-!
Shallow embedding of the memories CRUD routes of the nlw-timeline-server
repository (src/routes/memories.ts plus src/server.ts).  The Prisma store
is a list of Memory records; each Fastify handler becomes a pure function
from the caller subject, the request parts and the store to an outcome
(and, for the mutating handlers, a new store).
-/

/-- The Memory entity as stored by Prisma (model Memory). -/
structure Memory where
  id : String
  content : String
  coverUrl : String
  isPublic : Bool
  userId : String
  createdAt : Nat
deriving DecidableEq, Repr, Inhabited

/-- A JSON value as delivered in a request body.  Arrays and objects are
collapsed to markers: the routes only inspect primitive fields, and for
truthiness every array or object is truthy. -/
inductive Json where
  | str (s : String)
  | num (n : Int)
  | bool (b : Bool)
  | null
  | arr
  | obj
deriving DecidableEq, Repr

/-- JavaScript truthiness, as applied by `Boolean(x)` inside
`z.coerce.boolean()`. -/
def jsTruthy : Json → Bool
  | .str s => s != ""
  | .num n => n != 0
  | .bool b => b
  | .null => false
  | .arr => true
  | .obj => true

/-- The raw request body for POST /memories and PUT /memories/:id: each
field is present with some JSON value or absent. -/
structure RawBody where
  content : Option Json
  coverUrl : Option Json
  isPublic : Option Json
deriving DecidableEq, Repr

/-- The result of a successful bodySchema.parse. -/
structure ParsedBody where
  content : String
  coverUrl : String
  isPublic : Bool
deriving DecidableEq, Repr

/-- Embedding of `z.coerce.boolean().default(false)`: an absent field
takes the default, a present field is coerced by JS truthiness. -/
def coerceBooleanDefaultFalse : Option Json → Bool
  | none => false
  | some v => jsTruthy v

/-- Embedding of `bodySchema.parse` for the POST and PUT body schema
`z.object \x7b content: z.string(), coverUrl: z.string(),
isPublic: z.coerce.boolean().default(false) \x7d`: parsing succeeds iff
both required fields are present as strings; the coercion of isPublic
never fails. -/
def bodySchemaParse (b : RawBody) : Option ParsedBody :=
  match b.content, b.coverUrl with
  | some (.str c), some (.str u) =>
      some ⟨c, u, coerceBooleanDefaultFalse b.isPublic⟩
  | _, _ => none

/-- Hexadecimal digit test, for UUID syntax. -/
def isHexDigit (c : Char) : Bool :=
  c.isDigit || ('a' ≤ c && c ≤ 'f') || ('A' ≤ c && c ≤ 'F')

/-- Embedding of `z.string().uuid()` from paramsSchema: the 8-4-4-4-12
hexadecimal shape with hyphens at positions 8, 13, 18 and 23. -/
def isValidUuid (s : String) : Bool :=
  let cs := s.data
  cs.length == 36 &&
    (List.range 36).all fun i =>
      if i == 8 || i == 13 || i == 18 || i == 23 then cs.getD i ' ' == '-'
      else isHexDigit (cs.getD i ' ')

/-- Embedding of `prisma.memory.findUniqueOrThrow(\x7b where: \x7b id \x7d \x7d)`:
the unique record with that id, if any (Prisma keeps ids unique). -/
def findUniqueOrThrow (id : String) (store : List Memory) : Option Memory :=
  store.find? fun m => m.id == id

/-- The excerpt computed in the list handler:
`content.length > 115 ? content.substring(0, 115).concat('...') : content`. -/
def excerptOf (content : String) : String :=
  if content.length > 115 then (content.take 115) ++ "..." else content

/-- The summary view returned by GET /memories for each record. -/
structure MemorySummary where
  id : String
  coverUrl : String
  excerpt : String
deriving DecidableEq, Repr

/-- The projection applied by the list handler's `memories.map`. -/
def summarize (m : Memory) : MemorySummary :=
  ⟨m.id, m.coverUrl, excerptOf m.content⟩

/-- The ordering relation of `orderBy: \x7b createdAt: 'asc' \x7d`. -/
def createdAtLE (a b : Memory) : Prop :=
  a.createdAt ≤ b.createdAt

instance : DecidableRel createdAtLE := fun a b =>
  inferInstanceAs (Decidable (a.createdAt ≤ b.createdAt))

instance : IsTotal Memory createdAtLE :=
  ⟨fun a b => Nat.le_total a.createdAt b.createdAt⟩

instance : IsTrans Memory createdAtLE :=
  ⟨fun _ _ _ hab hbc => Nat.le_trans hab hbc⟩

/-- The store-side ordering of `findMany` with `orderBy createdAt asc`. -/
def sortByCreatedAt (l : List Memory) : List Memory :=
  l.insertionSort createdAtLE

/-- Handler of GET /memories: `findMany` filtered to the caller's records,
ordered by createdAt ascending, then projected to the summary view. -/
def listMemories (sub : String) (store : List Memory) : List MemorySummary :=
  (sortByCreatedAt (store.filter fun m => m.userId == sub)).map summarize

/-- Outcome of a handler: a thrown zod validation error, the uncaught
throw of findUniqueOrThrow, the explicit 401 empty reply, or a 200 body. -/
inductive Outcome (α : Type) where
  | validationError
  | thrownNotFound
  | unauthorized
  | ok (body : α)
deriving DecidableEq, Repr

/-- Handler of GET /memories/:id: param validation, lookup, then the
authorization check `!memory.isPublic && memory.userId !== req.user.sub`. -/
def getMemory (sub idParam : String) (store : List Memory) : Outcome Memory :=
  if !isValidUuid idParam then .validationError
  else
    match findUniqueOrThrow idParam store with
    | none => .thrownNotFound
    | some memory =>
        if !memory.isPublic && memory.userId != sub then .unauthorized
        else .ok memory

/-- Handler of POST /memories: body validation, then `prisma.memory.create`
with the caller as owner.  The store-generated id and createdAt are passed
in explicitly. -/
def createMemory (sub : String) (body : RawBody) (genId : String)
    (genCreatedAt : Nat) (store : List Memory) :
    Outcome Memory × List Memory :=
  match bodySchemaParse body with
  | none => (.validationError, store)
  | some p =>
      let memory : Memory :=
        ⟨genId, p.content, p.coverUrl, p.isPublic, sub, genCreatedAt⟩
      (.ok memory, store ++ [memory])

/-- Embedding of `prisma.memory.update(\x7b where: \x7b id \x7d, data \x7d)`
on the store: the record with that id gets the three data fields replaced
in place. -/
def applyUpdate (id : String) (p : ParsedBody) (store : List Memory) :
    List Memory :=
  store.map fun m =>
    if m.id == id then
      { m with content := p.content, coverUrl := p.coverUrl,
               isPublic := p.isPublic }
    else m

/-- Handler of PUT /memories/:id: param validation, body validation,
lookup, ownership check `memory.userId !== req.user.sub`, then update. -/
def putMemory (sub idParam : String) (body : RawBody) (store : List Memory) :
    Outcome Memory × List Memory :=
  if !isValidUuid idParam then (.validationError, store)
  else
    match bodySchemaParse body with
    | none => (.validationError, store)
    | some p =>
        match findUniqueOrThrow idParam store with
        | none => (.thrownNotFound, store)
        | some memory =>
            if memory.userId != sub then (.unauthorized, store)
            else
              (.ok { memory with content := p.content, coverUrl := p.coverUrl,
                                 isPublic := p.isPublic },
               applyUpdate idParam p store)

/-- Handler of DELETE /memories/:id: param validation, lookup, ownership
check, then `prisma.memory.delete(\x7b where: \x7b id \x7d \x7d)`. -/
def deleteMemory (sub idParam : String) (store : List Memory) :
    Outcome Unit × List Memory :=
  if !isValidUuid idParam then (.validationError, store)
  else
    match findUniqueOrThrow idParam store with
    | none => (.thrownNotFound, store)
    | some memory =>
        if memory.userId != sub then (.unauthorized, store)
        else (.ok (), store.filter fun m => m.id != idParam)

/-! Helper lemmas -/

theorem find?_append_of_none {α : Type} (p : α → Bool) :
    ∀ l₁ l₂ : List α, l₁.find? p = none → (l₁ ++ l₂).find? p = l₂.find? p
  | [], _, _ => rfl
  | a :: l₁, l₂, h => by
    cases hpa : p a with
    | true => simp [List.find?_cons_of_pos _ hpa] at h
    | false =>
        have hna : ¬p a = true := by simp [hpa]
        rw [List.find?_cons_of_neg _ hna] at h
        rw [List.cons_append, List.find?_cons_of_neg _ hna]
        exact find?_append_of_none p l₁ l₂ h

/-! Concrete inputs used by the witnesses -/

def uuidA : String := "aaaaaaaa-aaaa-aaaa-aaaa-aaaaaaaaaaaa"

def uuidB : String := "bbbbbbbb-bbbb-bbbb-bbbb-bbbbbbbbbbbb"

def memPrivate : Memory := ⟨uuidA, "hello", "http://x/y.png", false, "ownerU", 1⟩

def memOfB : Memory := ⟨uuidB, "text", "http://c/d.png", true, "ownerU", 2⟩

def goodBody : RawBody := ⟨some (.str "new content"), some (.str "http://n.png"), some (.bool true)⟩

/-- C1: for GET /memories/:id on an existing record, a private memory of
another user yields the 401 empty reply, and otherwise the full record is
returned unprojected. -/
theorem getMemory_auth (sub idParam : String) (store : List Memory) (m : Memory)
    (hid : isValidUuid idParam = true)
    (hfind : findUniqueOrThrow idParam store = some m) :
    getMemory sub idParam store =
      (if m.isPublic = false ∧ m.userId ≠ sub then Outcome.unauthorized
       else Outcome.ok m) := by
  simp only [getMemory, hid, Bool.not_true, Bool.false_eq_true, if_false, hfind]
  by_cases hpub : m.isPublic
  · simp [hpub]
  · by_cases hown : m.userId = sub
    · simp [hpub, hown]
    · simp [hpub, hown]

/-- Witness for C1 at a private memory read by a non-owner. -/
theorem getMemory_auth_witness :
    getMemory "otherV" uuidA [memPrivate] =
      (if memPrivate.isPublic = false ∧ memPrivate.userId ≠ "otherV" then
         Outcome.unauthorized
       else Outcome.ok memPrivate) :=
  getMemory_auth "otherV" uuidA [memPrivate] memPrivate (by decide) (by decide)

/-- C2: for PUT and DELETE on an existing record, a non-owner gets the 401
empty reply with the store untouched, and only the owner's request reaches
the update or delete store call. -/
theorem putDelete_owner_only (sub idParam : String) (body : RawBody)
    (store : List Memory) (p : ParsedBody) (m : Memory)
    (hid : isValidUuid idParam = true)
    (hbody : bodySchemaParse body = some p)
    (hfind : findUniqueOrThrow idParam store = some m) :
    putMemory sub idParam body store =
      (if m.userId = sub then
         (Outcome.ok { m with content := p.content, coverUrl := p.coverUrl,
                              isPublic := p.isPublic },
          applyUpdate idParam p store)
       else (Outcome.unauthorized, store)) ∧
    deleteMemory sub idParam store =
      (if m.userId = sub then (Outcome.ok (), store.filter fun x => x.id != idParam)
       else (Outcome.unauthorized, store)) := by
  constructor
  · simp only [putMemory, hid, Bool.not_true, Bool.false_eq_true, if_false, hbody,
      hfind]
    by_cases hown : m.userId = sub <;> simp [hown]
  · simp only [deleteMemory, hid, Bool.not_true, Bool.false_eq_true, if_false, hfind]
    by_cases hown : m.userId = sub <;> simp [hown]

/-- Witness for C2 at a non-owner caller. -/
theorem putDelete_owner_only_witness :
    putMemory "otherV" uuidA goodBody [memPrivate] =
      (if memPrivate.userId = "otherV" then
         (Outcome.ok
            { memPrivate with
                content := "new content"
                coverUrl := "http://n.png"
                isPublic := true },
          applyUpdate uuidA ⟨"new content", "http://n.png", true⟩ [memPrivate])
       else (Outcome.unauthorized, [memPrivate])) ∧
    deleteMemory "otherV" uuidA [memPrivate] =
      (if memPrivate.userId = "otherV" then
         (Outcome.ok (), [memPrivate].filter fun x => x.id != uuidA)
       else (Outcome.unauthorized, [memPrivate])) :=
  putDelete_owner_only "otherV" uuidA goodBody [memPrivate]
    ⟨"new content", "http://n.png", true⟩ memPrivate (by decide) (by decide)
    (by decide)

/-- C6: when no record with the addressed id exists, the lookup of all
three id-addressed handlers surfaces as the uncaught findUniqueOrThrow
error and the store is unchanged. -/
theorem notFound_throws (sub idParam : String) (body : RawBody)
    (store : List Memory) (p : ParsedBody)
    (hid : isValidUuid idParam = true)
    (hbody : bodySchemaParse body = some p)
    (hfind : findUniqueOrThrow idParam store = none) :
    getMemory sub idParam store = Outcome.thrownNotFound ∧
    putMemory sub idParam body store = (Outcome.thrownNotFound, store) ∧
    deleteMemory sub idParam store = (Outcome.thrownNotFound, store) := by
  refine ⟨?_, ?_, ?_⟩
  · simp [getMemory, hid, hfind]
  · simp [putMemory, hid, hbody, hfind]
  · simp [deleteMemory, hid, hfind]

/-- Witness for C6 at an id absent from the store. -/
theorem notFound_throws_witness :
    getMemory "ownerU" uuidB [memPrivate] = Outcome.thrownNotFound ∧
    putMemory "ownerU" uuidB goodBody [memPrivate] =
      (Outcome.thrownNotFound, [memPrivate]) ∧
    deleteMemory "ownerU" uuidB [memPrivate] =
      (Outcome.thrownNotFound, [memPrivate]) :=
  notFound_throws "ownerU" uuidB goodBody [memPrivate]
    ⟨"new content", "http://n.png", true⟩ (by decide) (by decide) (by decide)

/-- C8: a syntactically invalid id fails the id-addressed handlers with
the zod validation error before any store access, and a body rejected by
the body schema fails POST and PUT the same way; the store is unchanged
in every case. -/
theorem validation_rejects_before_store (sub idParam genId : String)
    (genCreatedAt : Nat) (body : RawBody) (store : List Memory) :
    (isValidUuid idParam = false →
        getMemory sub idParam store = Outcome.validationError ∧
        putMemory sub idParam body store = (Outcome.validationError, store) ∧
        deleteMemory sub idParam store = (Outcome.validationError, store)) ∧
    (bodySchemaParse body = none →
        createMemory sub body genId genCreatedAt store =
          (Outcome.validationError, store) ∧
        putMemory sub idParam body store = (Outcome.validationError, store)) := by
  constructor
  · intro hbad
    exact ⟨by simp [getMemory, hbad], by simp [putMemory, hbad],
      by simp [deleteMemory, hbad]⟩
  · intro hbody
    refine ⟨by simp [createMemory, hbody], ?_⟩
    by_cases hid : isValidUuid idParam <;> simp [putMemory, hid, hbody]

/-- Witness for C8 at a malformed id together with a body whose required
content field is missing. -/
theorem validation_rejects_before_store_witness :
    (isValidUuid "not-a-uuid" = false →
        getMemory "ownerU" "not-a-uuid" [memPrivate] = Outcome.validationError ∧
        putMemory "ownerU" "not-a-uuid" ⟨none, some (.str "c"), none⟩ [memPrivate] =
          (Outcome.validationError, [memPrivate]) ∧
        deleteMemory "ownerU" "not-a-uuid" [memPrivate] =
          (Outcome.validationError, [memPrivate])) ∧
    (bodySchemaParse ⟨none, some (.str "c"), none⟩ = none →
        createMemory "ownerU" ⟨none, some (.str "c"), none⟩ uuidB 7 [memPrivate] =
          (Outcome.validationError, [memPrivate]) ∧
        putMemory "ownerU" "not-a-uuid" ⟨none, some (.str "c"), none⟩ [memPrivate] =
          (Outcome.validationError, [memPrivate])) :=
  validation_rejects_before_store "ownerU" "not-a-uuid" uuidB 7
    ⟨none, some (.str "c"), none⟩ [memPrivate]

/-- C7: the list handler returns exactly the caller's records, ordered by
createdAt ascending, each projected to the id, coverUrl and excerpt
summary, with no pagination. -/
theorem listMemories_owned_sorted (sub : String) (store : List Memory) :
    ∃ owned : List Memory,
      owned.Perm (store.filter fun m => m.userId == sub) ∧
      List.Sorted createdAtLE owned ∧
      listMemories sub store = owned.map summarize :=
  ⟨sortByCreatedAt (store.filter fun m => m.userId == sub),
   List.perm_insertionSort createdAtLE _,
   List.sorted_insertionSort createdAtLE _, rfl⟩

def longContent : String := String.mk (List.replicate 120 'x')

def memLong : Memory := ⟨uuidB, longContent, "http://l.png", true, "userW", 3⟩

/-- C3: every item of the list response comes from an owned store record
and its excerpt is the first 115 characters of the content followed by an
ellipsis when the content is longer than 115 characters, the content
verbatim otherwise. -/
theorem listMemories_excerpt (sub : String) (store : List Memory)
    (e : MemorySummary) (he : e ∈ listMemories sub store) :
    ∃ m ∈ store,
      m.userId = sub ∧ e.id = m.id ∧ e.coverUrl = m.coverUrl ∧
      e.excerpt =
        (if m.content.length > 115 then (m.content.take 115) ++ "..."
         else m.content) := by
  simp only [listMemories, List.mem_map] at he
  obtain ⟨m, hm, rfl⟩ := he
  rw [sortByCreatedAt, List.mem_insertionSort] at hm
  obtain ⟨hmem, hown⟩ := List.mem_filter.mp hm
  exact ⟨m, hmem, by simpa using hown, rfl, rfl, rfl⟩

set_option maxRecDepth 20000 in
/-- Witness for C3 at a record whose content exceeds 115 characters. -/
theorem listMemories_excerpt_witness :
    ∃ m ∈ [memLong],
      m.userId = "userW" ∧ (summarize memLong).id = m.id ∧
      (summarize memLong).coverUrl = m.coverUrl ∧
      (summarize memLong).excerpt =
        (if m.content.length > 115 then (m.content.take 115) ++ "..."
         else m.content) :=
  listMemories_excerpt "userW" [memLong] (summarize memLong) (by decide)

def memPub : Memory := ⟨uuidA, "old words", "http://o.png", true, "ownerU", 1⟩

def bodyNoPublic : RawBody := ⟨some (.str "c2"), some (.str "http://u2.png"), none⟩

/-- C4: with the isPublic field omitted from the body, the record created
by POST and the record stored and returned by an owner PUT have
isPublic = false, even when the updated record was previously public. -/
theorem isPublic_omitted_defaults_false (sub idParam genId : String)
    (genCreatedAt : Nat) (body : RawBody) (store : List Memory)
    (c u : String) (m : Memory)
    (hc : body.content = some (Json.str c))
    (hu : body.coverUrl = some (Json.str u))
    (hnone : body.isPublic = none)
    (hid : isValidUuid idParam = true)
    (hfind : findUniqueOrThrow idParam store = some m)
    (howner : m.userId = sub) :
    (∃ r, (createMemory sub body genId genCreatedAt store).1 = Outcome.ok r ∧
        r.isPublic = false ∧
        r ∈ (createMemory sub body genId genCreatedAt store).2) ∧
    (∃ r, (putMemory sub idParam body store).1 = Outcome.ok r ∧
        r.isPublic = false ∧
        ∀ x ∈ (putMemory sub idParam body store).2, x.id = idParam →
          x.isPublic = false) := by
  have hb : bodySchemaParse body = some ⟨c, u, false⟩ := by
    simp [bodySchemaParse, hc, hu, hnone, coerceBooleanDefaultFalse]
  constructor
  · refine ⟨⟨genId, c, u, false, sub, genCreatedAt⟩, ?_, rfl, ?_⟩
    · simp [createMemory, hb]
    · simp [createMemory, hb]
  · refine ⟨{ m with content := c, coverUrl := u, isPublic := false }, ?_, rfl, ?_⟩
    · simp [putMemory, hid, hb, hfind, howner]
    · intro x hx hxid
      simp only [putMemory, hid, Bool.not_true, Bool.false_eq_true, if_false, hb,
        hfind, howner, bne_self_eq_false] at hx
      simp only [applyUpdate, List.mem_map] at hx
      obtain ⟨y, _, rfl⟩ := hx
      by_cases h : y.id = idParam
      · simp [h]
      · rw [if_neg (by simpa using h)] at hxid ⊢
        exact absurd hxid h

/-- Witness for C4 at a previously public record updated by its owner with
the isPublic field omitted. -/
theorem isPublic_omitted_defaults_false_witness :
    (∃ r, (createMemory "ownerU" bodyNoPublic uuidB 9 [memPub]).1 = Outcome.ok r ∧
        r.isPublic = false ∧
        r ∈ (createMemory "ownerU" bodyNoPublic uuidB 9 [memPub]).2) ∧
    (∃ r, (putMemory "ownerU" uuidA bodyNoPublic [memPub]).1 = Outcome.ok r ∧
        r.isPublic = false ∧
        ∀ x ∈ (putMemory "ownerU" uuidA bodyNoPublic [memPub]).2, x.id = uuidA →
          x.isPublic = false) :=
  isPublic_omitted_defaults_false "ownerU" uuidA uuidB 9 bodyNoPublic [memPub]
    "c2" "http://u2.png" memPub rfl rfl rfl (by decide) (by decide) rfl

/-- C5: a successful owner PUT returns the addressed record with exactly
content, coverUrl and isPublic replaced and id, userId and createdAt
unchanged, and every other position of the store keeps its record. -/
theorem putMemory_frame (sub idParam : String) (body : RawBody)
    (store : List Memory) (p : ParsedBody) (m : Memory)
    (hid : isValidUuid idParam = true)
    (hbody : bodySchemaParse body = some p)
    (hfind : findUniqueOrThrow idParam store = some m)
    (howner : m.userId = sub) :
    (putMemory sub idParam body store).1 =
      Outcome.ok
        { id := m.id, content := p.content, coverUrl := p.coverUrl,
          isPublic := p.isPublic, userId := m.userId,
          createdAt := m.createdAt } ∧
    ((putMemory sub idParam body store).2).length = store.length ∧
    ∀ i : Nat, ∀ x : Memory, store[i]? = some x →
      (x.id = idParam →
        ((putMemory sub idParam body store).2)[i]? =
          some { x with content := p.content, coverUrl := p.coverUrl,
                        isPublic := p.isPublic }) ∧
      (x.id ≠ idParam → ((putMemory sub idParam body store).2)[i]? = some x) := by
  have hput : putMemory sub idParam body store =
      (Outcome.ok { m with content := p.content, coverUrl := p.coverUrl,
                           isPublic := p.isPublic },
       applyUpdate idParam p store) := by
    simp [putMemory, hid, hbody, hfind, howner]
  rw [hput]
  refine ⟨rfl, ?_, ?_⟩
  · simp [applyUpdate]
  · intro i x hix
    rw [applyUpdate, List.getElem?_map, hix]
    constructor
    · intro hxid
      simp [hxid]
    · intro hxid
      simp [hxid]

def memOther : Memory := ⟨uuidB, "other words", "http://b.png", false, "ownerU", 2⟩

/-- Witness for C5 updating the first of two records. -/
theorem putMemory_frame_witness :
    (putMemory "ownerU" uuidA goodBody [memPub, memOther]).1 =
      Outcome.ok
        { id := memPub.id, content := "new content",
          coverUrl := "http://n.png", isPublic := true,
          userId := memPub.userId, createdAt := memPub.createdAt } ∧
    ((putMemory "ownerU" uuidA goodBody [memPub, memOther]).2).length =
      [memPub, memOther].length ∧
    ∀ i : Nat, ∀ x : Memory, [memPub, memOther][i]? = some x →
      (x.id = uuidA →
        ((putMemory "ownerU" uuidA goodBody [memPub, memOther]).2)[i]? =
          some { x with content := "new content", coverUrl := "http://n.png",
                        isPublic := true }) ∧
      (x.id ≠ uuidA →
        ((putMemory "ownerU" uuidA goodBody [memPub, memOther]).2)[i]? =
          some x) :=
  putMemory_frame "ownerU" uuidA goodBody [memPub, memOther]
    ⟨"new content", "http://n.png", true⟩ memPub (by decide) (by decide)
    (by decide) rfl

def bodyFull : RawBody :=
  ⟨some (.str "hello"), some (.str "http://x/y.png"), some (.bool true)⟩

/-- C9: creating a Memory and then getting it by its generated id as the
same caller returns a record equal to the created one in all fields, with
userId equal to the caller's subject. -/
theorem create_then_get_roundTrip (sub genId : String) (genCreatedAt : Nat)
    (body : RawBody) (store : List Memory) (p : ParsedBody)
    (hbody : bodySchemaParse body = some p)
    (hgen : isValidUuid genId = true)
    (hfresh : ∀ m ∈ store, m.id ≠ genId) :
    ∃ created : Memory,
      (createMemory sub body genId genCreatedAt store).1 = Outcome.ok created ∧
      created = ⟨genId, p.content, p.coverUrl, p.isPublic, sub, genCreatedAt⟩ ∧
      getMemory sub genId (createMemory sub body genId genCreatedAt store).2 =
        Outcome.ok created := by
  refine ⟨⟨genId, p.content, p.coverUrl, p.isPublic, sub, genCreatedAt⟩, ?_, rfl, ?_⟩
  · simp [createMemory, hbody]
  · have hsnd : (createMemory sub body genId genCreatedAt store).2 =
        store ++ [⟨genId, p.content, p.coverUrl, p.isPublic, sub, genCreatedAt⟩] := by
      simp [createMemory, hbody]
    rw [hsnd]
    have hnone : store.find? (fun m => m.id == genId) = none :=
      List.find?_eq_none.mpr fun x hx => by simpa using hfresh x hx
    have hfindnew : findUniqueOrThrow genId
        (store ++ [(⟨genId, p.content, p.coverUrl, p.isPublic, sub,
          genCreatedAt⟩ : Memory)]) =
        some ⟨genId, p.content, p.coverUrl, p.isPublic, sub, genCreatedAt⟩ := by
      rw [findUniqueOrThrow, find?_append_of_none _ _ _ hnone]
      simp [List.find?]
    simp [getMemory, hgen, hfindnew]

/-- Witness for C9 creating into an empty store and reading it back. -/
theorem create_then_get_roundTrip_witness :
    ∃ created : Memory,
      (createMemory "userU" bodyFull uuidA 10 []).1 = Outcome.ok created ∧
      created = ⟨uuidA, "hello", "http://x/y.png", true, "userU", 10⟩ ∧
      getMemory "userU" uuidA (createMemory "userU" bodyFull uuidA 10 []).2 =
        Outcome.ok created :=
  create_then_get_roundTrip "userU" uuidA 10 bodyFull []
    ⟨"hello", "http://x/y.png", true⟩ rfl (by decide) (by simp)

def bodyStrFalse : RawBody :=
  ⟨some (.str "hello"), some (.str "http://w.png"), some (.str "false")⟩

/-- C10: for both the POST and the PUT body, a supplied isPublic field is
coerced by JavaScript truthiness into the stored record, so any non-empty
string (the string of the word false included) stores true, and false is
stored exactly when the field is omitted or a falsy value. -/
theorem isPublic_truthiness (sub idParam genId : String) (genCreatedAt : Nat)
    (store : List Memory) (body : RawBody) (c u : String) (m : Memory)
    (hc : body.content = some (Json.str c))
    (hu : body.coverUrl = some (Json.str u))
    (hid : isValidUuid idParam = true)
    (hfind : findUniqueOrThrow idParam store = some m)
    (howner : m.userId = sub) :
    (∃ r, (createMemory sub body genId genCreatedAt store).1 = Outcome.ok r ∧
        r.isPublic = coerceBooleanDefaultFalse body.isPublic) ∧
    (∃ r, (putMemory sub idParam body store).1 = Outcome.ok r ∧
        r.isPublic = coerceBooleanDefaultFalse body.isPublic ∧
        ∀ x ∈ (putMemory sub idParam body store).2, x.id = idParam →
          x.isPublic = coerceBooleanDefaultFalse body.isPublic) ∧
    (∀ s, body.isPublic = some (Json.str s) →
        coerceBooleanDefaultFalse body.isPublic = (s != "")) ∧
    (coerceBooleanDefaultFalse body.isPublic = false ↔
      (body.isPublic = none ∨ body.isPublic = some (Json.bool false) ∨
       body.isPublic = some (Json.num 0) ∨
       body.isPublic = some (Json.str "") ∨
       body.isPublic = some Json.null)) := by
  have hb : bodySchemaParse body =
      some ⟨c, u, coerceBooleanDefaultFalse body.isPublic⟩ := by
    simp [bodySchemaParse, hc, hu]
  refine ⟨⟨⟨genId, c, u, coerceBooleanDefaultFalse body.isPublic, sub,
    genCreatedAt⟩, ?_, rfl⟩, ?_, ?_, ?_⟩
  · simp [createMemory, hb]
  · refine
      ⟨{ m with
          content := c
          coverUrl := u
          isPublic := coerceBooleanDefaultFalse body.isPublic },
       ?_, rfl, ?_⟩
    · simp [putMemory, hid, hb, hfind, howner]
    · intro x hx hxid
      simp only [putMemory, hid, Bool.not_true, Bool.false_eq_true, if_false, hb,
        hfind, howner, bne_self_eq_false] at hx
      simp only [applyUpdate, List.mem_map] at hx
      obtain ⟨y, _, rfl⟩ := hx
      by_cases h : y.id = idParam
      · simp [h]
      · rw [if_neg (by simpa using h)] at hxid ⊢
        exact absurd hxid h
  · intro s hs
    rw [hs]
    rfl
  · cases hv : body.isPublic with
    | none => simp [coerceBooleanDefaultFalse]
    | some v => cases v <;> simp [coerceBooleanDefaultFalse, jsTruthy]

/-- Witness for C10 at a body carrying the string of the word false, run
through both POST and an owner PUT of an existing record. -/
theorem isPublic_truthiness_witness :
    (∃ r, (createMemory "ownerU" bodyStrFalse uuidB 4 [memPub]).1 =
        Outcome.ok r ∧
        r.isPublic = coerceBooleanDefaultFalse bodyStrFalse.isPublic) ∧
    (∃ r, (putMemory "ownerU" uuidA bodyStrFalse [memPub]).1 = Outcome.ok r ∧
        r.isPublic = coerceBooleanDefaultFalse bodyStrFalse.isPublic ∧
        ∀ x ∈ (putMemory "ownerU" uuidA bodyStrFalse [memPub]).2, x.id = uuidA →
          x.isPublic = coerceBooleanDefaultFalse bodyStrFalse.isPublic) ∧
    (∀ s, bodyStrFalse.isPublic = some (Json.str s) →
        coerceBooleanDefaultFalse bodyStrFalse.isPublic = (s != "")) ∧
    (coerceBooleanDefaultFalse bodyStrFalse.isPublic = false ↔
      (bodyStrFalse.isPublic = none ∨
       bodyStrFalse.isPublic = some (Json.bool false) ∨
       bodyStrFalse.isPublic = some (Json.num 0) ∨
       bodyStrFalse.isPublic = some (Json.str "") ∨
       bodyStrFalse.isPublic = some Json.null)) :=
  isPublic_truthiness "ownerU" uuidA uuidB 4 [memPub] bodyStrFalse "hello"
    "http://w.png" memPub rfl rfl (by decide) (by decide) rfl
